import Mathlib

/-!
Verification of the `logrusgce` GCE log formatter (`gceformatter.go`).

The Go code is embedded shallowly:

* `logrus.Level` is a `uint32`; we model it as `Nat` with the named level
  constants of logrus (`PanicLevel = 0` … `DebugLevel = 5`).  Values outside
  the constant table (such as `6`, logrus's trace level) inhabit the type and
  are unmapped in the severity table, exactly as in Go.
* The Go map `levelsLogrusToGCE` becomes `levelsLogrusToGCE : Nat → Option String`;
  Go's zero-value-on-miss indexing (`levelsLogrusToGCE[entry.Level]`) becomes
  `severityOf`, which yields the empty string on a miss.
* The package-global `stackSkips` map guarded by `stackSkipsMu` becomes an
  explicit `SkipCache` value threaded through the functions (the double-checked
  locking collapses to the single sequential lookup it implements).
* The runtime stack primitives are out of scope for the repository and appear
  as parameters: `frames` is the 20-slot window filled by
  `runtime.Callers(3, …)` (unfilled slots resolve to the empty name, as
  `(*runtime.Func).Name()` on a nil receiver does), and
  `caller : Nat → Option SourceFrame` is `runtime.Caller`, returning `none`
  when its `ok` result is false.
* `entry.Time.Format(time.RFC3339Nano)` is a Go standard-library call; the
  entry carries its rendered form directly (`timeRFC3339Nano`).
* `encoding/json.Marshal` of a `logrus.Fields` map is modelled by the JSON
  renderer at the end of the definitions.  Marshalling of the field values the
  model admits (strings, integers, booleans, objects) never fails, so
  the marshal-error branch of `Format` is unreachable in the model.  Key order
  in the rendered text (Go sorts map keys) is not modelled; no property below
  depends on it.
-/

/-- The logrus package path used by the frame scan in `getSkipLevel`. -/
def logrusPkg : String := "github.com/sirupsen/logrus"

def PanicLevel : Nat := 0

def FatalLevel : Nat := 1

def ErrorLevel : Nat := 2

def WarnLevel : Nat := 3

def InfoLevel : Nat := 4

def DebugLevel : Nat := 5

def severityDEBUG : String := "DEBUG"

def severityINFO : String := "INFO"

def severityNOTICE : String := "NOTICE"

def severityWARNING : String := "WARNING"

def severityERROR : String := "ERROR"

def severityCRITICAL : String := "CRITICAL"

def severityALERT : String := "ALERT"

def severityEMERGENCY : String := "EMERGENCY"

/-- The `levelsLogrusToGCE` map of `gceformatter.go`, as a partial function on
levels; `none` is absence of a key. -/
def levelsLogrusToGCE : Nat → Option String
  | 5 => some severityDEBUG
  | 4 => some severityINFO
  | 3 => some severityWARNING
  | 2 => some severityERROR
  | 1 => some severityCRITICAL
  | 0 => some severityALERT
  | _ => none

/-- Go map indexing `levelsLogrusToGCE[entry.Level]`: the zero value of the
string-backed `severity` type (the empty string) on a miss. -/
def severityOf (lv : Nat) : String := (levelsLogrusToGCE lv).getD ""

/-- The `stackSkips` map from levels to skip depths. -/
abbrev SkipCache := List (Nat × Nat)

def cacheLookup (c : SkipCache) (lv : Nat) : Option Nat :=
  (c.find? (fun p => p.1 == lv)).map (fun p => p.2)

def cacheStore (c : SkipCache) (lv skip : Nat) : SkipCache := (lv, skip) :: c

inductive GoError where
  | skipNotFound
deriving DecidableEq

/-- Byte-wise list prefix test, as `strings.HasPrefix` performs. -/
def listStartsWith : List Char → List Char → Bool
  | [], _ => true
  | _ :: _, [] => false
  | c :: cs, d :: ds => c == d && listStartsWith cs ds

/-- `strings.HasPrefix s p`. -/
def strStartsWith (s p : String) : Bool := listStartsWith p.data s.data

/-- The `for i, pc := range stackSkipsCallers` loop of `getSkipLevel`:
index of the first frame whose function name does not carry the logrus
package path. -/
def scanFrames : Nat → List String → Option Nat
  | _, [] => none
  | i, f :: fs => if strStartsWith f logrusPkg then scanFrames (i + 1) fs else some i

/-- `getSkipLevel` of `gceformatter.go`: cached lookup, else scan the captured
window and memoise index + 1; `ErrSkipNotFound` when the window is exhausted.
The returned cache is the post-state of the global `stackSkips` map. -/
def getSkipLevel (cache : SkipCache) (frames : List String) (lv : Nat) :
    Except GoError Nat × SkipCache :=
  match cacheLookup cache lv with
  | some skip => (.ok skip, cache)
  | none =>
    match scanFrames 0 frames with
    | some i => (.ok (i + 1), cacheStore cache lv (i + 1))
    | none => (.error .skipNotFound, cache)

/-- A JSON value in the output `logrus.Fields` map: a scalar or an object
(the shape of the `sourceLocation` map literal; also the shape `encoding/json`
gives a struct or map value, such as an error value with no exported fields,
which marshals to the empty object `obj []`). -/
inductive JValue where
  | str (s : String)
  | int (n : Int)
  | bool (b : Bool)
  | obj (fields : List (String × JValue))

/-- A value held in an input `entry.Data` field: a scalar, or a Go `error`
value carrying its `Error()` message. -/
inductive FieldValue where
  | str (s : String)
  | int (n : Int)
  | bool (b : Bool)
  | err (msg : String)
deriving DecidableEq

/-- The `switch v := v.(type)` of `Format`: an `error` value is replaced by
`v.Error()`, every other value is copied as is. -/
def coerceField : FieldValue → JValue
  | .err m => .str m
  | .str s => .str s
  | .int n => .int n
  | .bool b => .bool b

/-- Go map read: first binding for the key, if any. -/
def mapGet {α : Type} (m : List (String × α)) (k : String) : Option α :=
  (m.find? (fun p => p.1 == k)).map (fun p => p.2)

/-- Go map assignment `m[k] = v`: any previous binding for `k` is replaced. -/
def mapSet {α : Type} (m : List (String × α)) (k : String) (v : α) :
    List (String × α) :=
  m.filter (fun p => p.1 != k) ++ [(k, v)]

abbrev Fields := List (String × JValue)

/-- `runtime.Caller` output for one frame. -/
structure SourceFrame where
  file : String
  line : Int
  functionName : String
deriving DecidableEq

/-- The map literal stored under `logging.googleapis.com/sourceLocation`. -/
def sourceLocationValue (sf : SourceFrame) : JValue :=
  .obj [("file", .str sf.file), ("line", .int sf.line),
        ("function", .str sf.functionName)]

def sourceLocationKey : String := "logging.googleapis.com/sourceLocation"

/-- A `logrus.Entry` as `Format` reads it: data fields, the RFC3339Nano
rendering of its timestamp, its level, and its message. -/
structure Entry where
  data : List (String × FieldValue)
  timeRFC3339Nano : String
  level : Nat
  message : String

structure GCEFormatter where
  withSourceInfo : Bool

def NewGCEFormatter (withSourceInfo : Bool) : GCEFormatter := ⟨withSourceInfo⟩

/-- Lines 98–112 of `Format`: copy the entry's fields with error coercion,
then stamp `time`, `severity` and `message`. -/
def baseFields (entry : Entry) : Fields :=
  mapSet (mapSet (mapSet (entry.data.map (fun p => (p.1, coerceField p.2)))
      "time" (.str entry.timeRFC3339Nano))
    "severity" (.str (severityOf entry.level)))
  "message" (.str entry.message)

/-- `Format` up to (but not including) `json.Marshal`: the field map it hands
to the serializer, and the post-state of the skip cache.  Mirrors lines
97–129 of `gceformatter.go`; the `runtime.Caller(skip)` call is the `caller`
parameter, and its failing (`!ok`) branch leaves the map without a source
location, as the code does. -/
def formatData (f : GCEFormatter) (cache : SkipCache) (frames : List String)
    (caller : Nat → Option SourceFrame) (entry : Entry) :
    Except GoError Fields × SkipCache :=
  if f.withSourceInfo then
    match getSkipLevel cache frames entry.level with
    | (.ok skip, cache1) =>
      match caller skip with
      | some sf =>
          (.ok (mapSet (baseFields entry) sourceLocationKey (sourceLocationValue sf)),
           cache1)
      | none => (.ok (baseFields entry), cache1)
    | (.error e, cache1) => (.error e, cache1)
  else (.ok (baseFields entry), cache)

def obraceChar : Char := Char.ofNat 123

def cbraceChar : Char := Char.ofNat 125

def obrace : String := String.mk [obraceChar]

def cbrace : String := String.mk [cbraceChar]

def hexDigitChars : List Char := "0123456789abcdef".data

def hexDigit (n : Nat) : Char := hexDigitChars.getD n '0'

/-- `encoding/json` string escaping for one character (HTML escaping of
`<`, `>`, `&`, on by default in `json.Marshal`, is not modelled; no property
below depends on it). -/
def escapeChar (c : Char) : List Char :=
  if c = '"' then ['\\', '"']
  else if c = '\\' then ['\\', '\\']
  else if c = '\n' then ['\\', 'n']
  else if c = '\r' then ['\\', 'r']
  else if c = '\t' then ['\\', 't']
  else if c.toNat < 32 then
    ['\\', 'u', '0', '0', hexDigit (c.toNat / 16), hexDigit (c.toNat % 16)]
  else [c]

def escapeList : List Char → List Char
  | [] => []
  | c :: cs => escapeChar c ++ escapeList cs

/-- A JSON string literal. -/
def renderString (s : String) : String :=
  "\"" ++ String.mk (escapeList s.data) ++ "\""

def natDigits (n : Nat) : List Char :=
  if _h : n < 10 then [hexDigit n]
  else natDigits (n / 10) ++ [hexDigit (n % 10)]
decreasing_by exact Nat.div_lt_self (Nat.pos_of_ne_zero (by omega)) (by omega)

/-- Decimal rendering of an integer, as `encoding/json` emits numbers. -/
def intStr (n : Int) : String :=
  if n < 0 then "-" ++ String.mk (natDigits n.natAbs)
  else String.mk (natDigits n.toNat)

mutual

def renderValue : JValue → String
  | .str s => renderString s
  | .int n => intStr n
  | .bool b => if b then "true" else "false"
  | .obj fs => obrace ++ renderMembers fs ++ cbrace

def renderMembers : List (String × JValue) → String
  | [] => ""
  | [(k, v)] => renderString k ++ ":" ++ renderValue v
  | (k, v) :: p :: ps =>
      renderString k ++ ":" ++ renderValue v ++ "," ++ renderMembers (p :: ps)

end

/-- `json.Marshal` of the fields map: one JSON object. -/
def renderTop (fs : Fields) : String := obrace ++ renderMembers fs ++ cbrace

/-- `Format` of `gceformatter.go`, lines 97–134: build the field map, marshal
it, append the newline byte. -/
def Format (f : GCEFormatter) (cache : SkipCache) (frames : List String)
    (caller : Nat → Option SourceFrame) (entry : Entry) :
    Except GoError String × SkipCache :=
  match formatData f cache frames caller entry with
  | (.ok d, cache1) => (.ok (renderTop d ++ "\n"), cache1)
  | (.error e, cache1) => (.error e, cache1)


def entryTrace : Entry := ⟨[], "2024-01-02T03:04:05.000000006Z", 6, "m"⟩

def entryInfo : Entry := ⟨[], "2024-01-02T03:04:05.000000006Z", InfoLevel, "msg"⟩

def entryError : Entry := ⟨[], "2021-06-01T10:20:30.000000004Z", ErrorLevel, "disk full"⟩

def frameMain : SourceFrame := ⟨"/src/app/main.go", 42, "main.main"⟩

def entryTrace2 : Entry := ⟨[("k", .str "v")], "2022-02-02T02:02:02Z", 6, "trace msg"⟩

def entryWithErr : Entry :=
  ⟨[("cause", .err "file not found"), ("path", .str "/data")],
   "2023-03-03T03:03:03Z", WarnLevel, "open failed"⟩

def entryPath : Entry :=
  ⟨[("path", .str "/data")], "2021-06-01T10:20:30.000000004Z", ErrorLevel,
   "disk full"⟩

def entryShadow : Entry :=
  ⟨[(sourceLocationKey, .str "user supplied"), ("severity", .str "bogus")],
   "2020-05-05T05:05:05Z", InfoLevel, "m"⟩

theorem find?_filter_ne_none {α : Type} (m : List (String × α)) (k : String) :
    (m.filter (fun p => p.1 != k)).find? (fun p => p.1 == k) = none := by
  rw [List.find?_eq_none]
  intro p hp
  have hne := List.of_mem_filter hp
  simp only [bne_iff_ne, ne_eq] at hne
  simp only [beq_iff_eq]
  exact hne

theorem mapGet_mapSet_self {α : Type} (m : List (String × α)) (k : String) (v : α) :
    mapGet (mapSet m k v) k = some v := by
  unfold mapGet mapSet
  rw [List.find?_append, find?_filter_ne_none]
  rw [List.find?_cons_of_pos _ (by simp)]
  rfl

theorem find?_filter_other {α : Type} (m : List (String × α)) (k k' : String)
    (h : k' ≠ k) :
    (m.filter (fun p => p.1 != k)).find? (fun p => p.1 == k') =
      m.find? (fun p => p.1 == k') := by
  induction m with
  | nil => rfl
  | cons a m ih =>
    by_cases ha : a.1 = k
    · rw [List.filter_cons_of_neg (by simp [ha]),
        List.find?_cons_of_neg _ (by simp [ha, Ne.symm h]), ih]
    · rw [List.filter_cons_of_pos (by simp [ha])]
      by_cases ha2 : a.1 = k'
      · rw [List.find?_cons_of_pos _ (by simp [ha2]),
          List.find?_cons_of_pos _ (by simp [ha2])]
      · rw [List.find?_cons_of_neg _ (by simp [ha2]),
          List.find?_cons_of_neg _ (by simp [ha2]), ih]

theorem mapGet_mapSet_ne {α : Type} (m : List (String × α)) (k k' : String) (v : α)
    (h : k' ≠ k) : mapGet (mapSet m k v) k' = mapGet m k' := by
  unfold mapGet mapSet
  rw [List.find?_append, find?_filter_other m k k' h]
  have hlast : List.find? (fun p => p.1 == k') [(k, v)] = none := by
    rw [List.find?_cons_of_neg _ (by simp [Ne.symm h])]
    rfl
  rw [hlast]
  cases m.find? (fun p => p.1 == k') <;> rfl

theorem mapGet_map_coerce (m : List (String × FieldValue)) (k : String) :
    mapGet (m.map (fun p => (p.1, coerceField p.2))) k =
      (mapGet m k).map coerceField := by
  induction m with
  | nil => rfl
  | cons a m ih =>
    simp only [List.map_cons]
    by_cases h : a.1 = k
    · unfold mapGet
      rw [List.find?_cons_of_pos _ (by simp [h]), List.find?_cons_of_pos _ (by simp [h])]
      rfl
    · unfold mapGet at ih ⊢
      rw [List.find?_cons_of_neg _ (by simp [h]), List.find?_cons_of_neg _ (by simp [h])]
      exact ih

theorem scanFrames_found (frames : List String) (k i : Nat)
    (hi : i < frames.length)
    (hesc : strStartsWith (frames.getD i "") logrusPkg = false)
    (hbefore : ∀ j, j < i → strStartsWith (frames.getD j "") logrusPkg = true) :
    scanFrames k frames = some (k + i) := by
  induction frames generalizing k i with
  | nil => simp at hi
  | cons f fs ih =>
    cases i with
    | zero =>
      simp only [List.getD_cons_zero] at hesc
      simp [scanFrames, hesc]
    | succ i =>
      have hf : strStartsWith f logrusPkg = true := by
        have h0 := hbefore 0 (Nat.succ_pos i)
        simpa using h0
      simp only [scanFrames, hf, if_true]
      have hlen : i < fs.length := by simpa using hi
      have hesc2 : strStartsWith (fs.getD i "") logrusPkg = false := by
        simpa using hesc
      have hbefore2 : ∀ j, j < i → strStartsWith (fs.getD j "") logrusPkg = true := by
        intro j hj
        have hb := hbefore (j + 1) (by omega)
        simpa using hb
      rw [ih (k + 1) i hlen hesc2 hbefore2]
      congr 1
      omega

theorem scanFrames_exhausted (frames : List String) (k : Nat)
    (h : ∀ fr ∈ frames, strStartsWith fr logrusPkg = true) :
    scanFrames k frames = none := by
  induction frames generalizing k with
  | nil => rfl
  | cons f fs ih =>
    have hf : strStartsWith f logrusPkg = true := h f (List.mem_cons_self f fs)
    simp only [scanFrames, hf, if_true]
    exact ih (k + 1) (fun fr hfr => h fr (List.mem_cons_of_mem f hfr))

theorem getSkipLevel_hit (cache : SkipCache) (frames : List String) (lv skip : Nat)
    (h : cacheLookup cache lv = some skip) :
    getSkipLevel cache frames lv = (.ok skip, cache) := by
  unfold getSkipLevel
  rw [h]

theorem cacheLookup_store_self (cache : SkipCache) (lv skip : Nat) :
    cacheLookup (cacheStore cache lv skip) lv = some skip := by
  unfold cacheLookup cacheStore
  rw [List.find?_cons_of_pos _ (by simp)]
  rfl

theorem cacheLookup_store_ne (cache : SkipCache) (lv lv' skip : Nat) (h : lv' ≠ lv) :
    cacheLookup (cacheStore cache lv skip) lv' = cacheLookup cache lv' := by
  unfold cacheLookup cacheStore
  rw [List.find?_cons_of_neg _ (by simp [Ne.symm h])]

theorem getSkipLevel_ok_cached (cache : SkipCache) (frames : List String)
    (lv skip : Nat) (cache1 : SkipCache)
    (h : getSkipLevel cache frames lv = (.ok skip, cache1)) :
    cacheLookup cache1 lv = some skip := by
  unfold getSkipLevel at h
  cases hc : cacheLookup cache lv with
  | some s =>
    rw [hc] at h
    simp only [Prod.mk.injEq, Except.ok.injEq] at h
    obtain ⟨h1, h2⟩ := h
    rw [← h2, hc, h1]
  | none =>
    rw [hc] at h
    cases hs : scanFrames 0 frames with
    | some i =>
      rw [hs] at h
      simp only [Prod.mk.injEq, Except.ok.injEq] at h
      obtain ⟨h1, h2⟩ := h
      rw [← h2, ← h1]
      exact cacheLookup_store_self cache lv (i + 1)
    | none =>
      rw [hs] at h
      simp at h

theorem getSkipLevel_preserves (cache : SkipCache) (frames : List String)
    (lv lv' d' : Nat) (h : cacheLookup cache lv' = some d') :
    cacheLookup (getSkipLevel cache frames lv).2 lv' = some d' := by
  unfold getSkipLevel
  cases hc : cacheLookup cache lv with
  | some s => simpa using h
  | none =>
    cases hs : scanFrames 0 frames with
    | some i =>
      have hne : lv' ≠ lv := by
        intro he
        rw [he, hc] at h
        exact Option.noConfusion h
      simp only []
      rw [cacheLookup_store_ne cache lv lv' (i + 1) hne]
      exact h
    | none => simpa using h

theorem hexDigit_ne_newline (n : Nat) : hexDigit n ≠ '\n' := by
  have hmem : hexDigit n ∈ hexDigitChars ∨ hexDigit n = '0' := by
    unfold hexDigit
    rcases Nat.lt_or_ge n hexDigitChars.length with hlt | hge
    · left
      rw [List.getD_eq_getElem?_getD, List.getElem?_eq_getElem hlt]
      exact List.getElem_mem hlt
    · right
      exact List.getD_eq_default _ _ hge
  rcases hmem with hm | hm
  · intro hc
    rw [hc] at hm
    exact absurd hm (by decide)
  · rw [hm]
    decide

theorem newline_not_mem_escapeChar (c : Char) : '\n' ∉ escapeChar c := by
  intro hmem
  unfold escapeChar at hmem
  split at hmem
  · exact absurd hmem (by decide)
  split at hmem
  · exact absurd hmem (by decide)
  split at hmem
  · exact absurd hmem (by decide)
  split at hmem
  · exact absurd hmem (by decide)
  split at hmem
  · exact absurd hmem (by decide)
  split at hmem
  · simp only [List.mem_cons, List.not_mem_nil, or_false] at hmem
    rcases hmem with hm | hm | hm | hm | hm | hm
    · exact absurd hm (by decide)
    · exact absurd hm (by decide)
    · exact absurd hm (by decide)
    · exact absurd hm (by decide)
    · exact hexDigit_ne_newline _ hm.symm
    · exact hexDigit_ne_newline _ hm.symm
  · simp only [List.mem_singleton] at hmem
    rename_i h1 h2 h3 h4 h5 h6
    exact h3 hmem.symm

theorem newline_not_mem_escapeList (cs : List Char) : '\n' ∉ escapeList cs := by
  induction cs with
  | nil => simp [escapeList]
  | cons c cs ih =>
    unfold escapeList
    rw [List.mem_append]
    intro hmem
    rcases hmem with hm | hm
    · exact newline_not_mem_escapeChar c hm
    · exact ih hm

theorem newline_not_mem_renderString (s : String) : '\n' ∉ (renderString s).data := by
  unfold renderString
  rw [String.data_append, String.data_append]
  intro hmem
  rw [List.mem_append, List.mem_append] at hmem
  rcases hmem with (hm | hm) | hm
  · exact absurd hm (by decide)
  · exact newline_not_mem_escapeList s.data hm
  · exact absurd hm (by decide)

theorem newline_not_mem_natDigits (n : Nat) : '\n' ∉ natDigits n := by
  induction n using Nat.strong_induction_on with
  | _ n ih =>
    unfold natDigits
    split
    · intro hmem
      simp only [List.mem_singleton] at hmem
      exact hexDigit_ne_newline _ hmem.symm
    · rename_i hge
      intro hmem
      rw [List.mem_append] at hmem
      rcases hmem with hm | hm
      · exact ih (n / 10) (Nat.div_lt_self (by omega) (by omega)) hm
      · simp only [List.mem_singleton] at hm
        exact hexDigit_ne_newline _ hm.symm

theorem newline_not_mem_intStr (n : Int) : '\n' ∉ (intStr n).data := by
  unfold intStr
  split
  · rw [String.data_append]
    intro hmem
    rw [List.mem_append] at hmem
    rcases hmem with hm | hm
    · exact absurd hm (by decide)
    · exact newline_not_mem_natDigits _ hm
  · exact newline_not_mem_natDigits _

mutual

theorem newline_not_mem_renderValue (v : JValue) : '\n' ∉ (renderValue v).data := by
  cases v with
  | str s => exact newline_not_mem_renderString s
  | int n => exact newline_not_mem_intStr n
  | bool b =>
    cases b
    · exact (by decide : '\n' ∉ "false".data)
    · exact (by decide : '\n' ∉ "true".data)
  | obj fs =>
    show '\n' ∉ (obrace ++ renderMembers fs ++ cbrace).data
    rw [String.data_append, String.data_append]
    intro hmem
    rw [List.mem_append, List.mem_append] at hmem
    rcases hmem with (hm | hm) | hm
    · exact absurd hm (by decide)
    · exact newline_not_mem_renderMembers fs hm
    · exact absurd hm (by decide)

theorem newline_not_mem_renderMembers (fs : List (String × JValue)) :
    '\n' ∉ (renderMembers fs).data := by
  match fs with
  | [] => simp [renderMembers]
  | [(k, v)] =>
    show '\n' ∉ (renderString k ++ ":" ++ renderValue v).data
    rw [String.data_append, String.data_append]
    intro hmem
    rw [List.mem_append, List.mem_append] at hmem
    rcases hmem with (hm | hm) | hm
    · exact newline_not_mem_renderString k hm
    · exact absurd hm (by decide)
    · exact newline_not_mem_renderValue v hm
  | (k, v) :: p :: ps =>
    show '\n' ∉ (renderString k ++ ":" ++ renderValue v ++ "," ++ renderMembers (p :: ps)).data
    rw [String.data_append, String.data_append, String.data_append, String.data_append]
    intro hmem
    rw [List.mem_append, List.mem_append, List.mem_append, List.mem_append] at hmem
    rcases hmem with (((hm | hm) | hm) | hm) | hm
    · exact newline_not_mem_renderString k hm
    · exact absurd hm (by decide)
    · exact newline_not_mem_renderValue v hm
    · exact absurd hm (by decide)
    · exact newline_not_mem_renderMembers (p :: ps) hm

end

theorem newline_not_mem_renderTop (fs : Fields) : '\n' ∉ (renderTop fs).data := by
  unfold renderTop
  rw [String.data_append, String.data_append]
  intro hmem
  rw [List.mem_append, List.mem_append] at hmem
  rcases hmem with (hm | hm) | hm
  · exact absurd hm (by decide)
  · exact newline_not_mem_renderMembers fs hm
  · exact absurd hm (by decide)

theorem renderTop_head (fs : Fields) : (renderTop fs).data.head? = some obraceChar := by
  unfold renderTop
  rw [String.data_append, String.data_append]
  have hob : obrace.data = [obraceChar] := rfl
  rw [hob, List.append_assoc, List.singleton_append]
  rfl

theorem renderTop_last (fs : Fields) : (renderTop fs).data.getLast? = some cbraceChar := by
  unfold renderTop
  rw [String.data_append, String.data_append]
  have hcb : cbrace.data = [cbraceChar] := rfl
  rw [hcb]
  exact List.getLast?_concat _

theorem mapGet_baseFields_time (entry : Entry) :
    mapGet (baseFields entry) "time" = some (.str entry.timeRFC3339Nano) := by
  unfold baseFields
  rw [mapGet_mapSet_ne _ _ _ _ (by decide), mapGet_mapSet_ne _ _ _ _ (by decide),
    mapGet_mapSet_self]

theorem mapGet_baseFields_severity (entry : Entry) :
    mapGet (baseFields entry) "severity" = some (.str (severityOf entry.level)) := by
  unfold baseFields
  rw [mapGet_mapSet_ne _ _ _ _ (by decide), mapGet_mapSet_self]

theorem mapGet_baseFields_message (entry : Entry) :
    mapGet (baseFields entry) "message" = some (.str entry.message) := by
  unfold baseFields
  rw [mapGet_mapSet_self]

theorem mapGet_baseFields_other (entry : Entry) (k : String)
    (h1 : k ≠ "time") (h2 : k ≠ "severity") (h3 : k ≠ "message") :
    mapGet (baseFields entry) k = (mapGet entry.data k).map coerceField := by
  unfold baseFields
  rw [mapGet_mapSet_ne _ _ _ _ h3, mapGet_mapSet_ne _ _ _ _ h2,
    mapGet_mapSet_ne _ _ _ _ h1, mapGet_map_coerce]

/-- The exhaustive case split of `formatData`'s success path: the returned map
is the stamped field map, with the source location added exactly when source
info is on, the skip resolution succeeded, and `runtime.Caller` found a
frame. -/
theorem formatData_ok_cases (f : GCEFormatter) (cache : SkipCache)
    (frames : List String) (caller : Nat → Option SourceFrame) (entry : Entry)
    (d : Fields) (cache1 : SkipCache)
    (h : formatData f cache frames caller entry = (.ok d, cache1)) :
    d = baseFields entry ∨
      ∃ skip sf, f.withSourceInfo = true ∧
        getSkipLevel cache frames entry.level = (.ok skip, cache1) ∧
        caller skip = some sf ∧
        d = mapSet (baseFields entry) sourceLocationKey (sourceLocationValue sf) := by
  unfold formatData at h
  by_cases hsi : f.withSourceInfo
  · rw [if_pos hsi] at h
    cases hskip : getSkipLevel cache frames entry.level with
    | mk res cache2 =>
      rw [hskip] at h
      cases res with
      | ok skip =>
        dsimp only at h
        cases hcall : caller skip with
        | some sf =>
          rw [hcall] at h
          simp only [Prod.mk.injEq, Except.ok.injEq] at h
          obtain ⟨hd, hc⟩ := h
          subst hc
          right
          exact ⟨skip, sf, hsi, rfl, hcall, hd.symm⟩
        | none =>
          rw [hcall] at h
          simp only [Prod.mk.injEq, Except.ok.injEq] at h
          obtain ⟨hd, hc⟩ := h
          left
          exact hd.symm
      | error e => simp at h
  · rw [if_neg hsi] at h
    simp only [Prod.mk.injEq, Except.ok.injEq] at h
    obtain ⟨hd, hc⟩ := h
    left
    exact hd.symm

theorem formatData_error_cases (f : GCEFormatter) (cache : SkipCache)
    (frames : List String) (caller : Nat → Option SourceFrame) (entry : Entry)
    (e : GoError) (cache1 : SkipCache)
    (h : formatData f cache frames caller entry = (.error e, cache1)) :
    f.withSourceInfo = true ∧ e = .skipNotFound ∧
      getSkipLevel cache frames entry.level = (.error e, cache1) := by
  unfold formatData at h
  by_cases hsi : f.withSourceInfo
  · rw [if_pos hsi] at h
    cases hskip : getSkipLevel cache frames entry.level with
    | mk res cache2 =>
      rw [hskip] at h
      cases res with
      | ok skip =>
        dsimp only at h
        cases hcall : caller skip with
        | some sf => rw [hcall] at h; simp at h
        | none => rw [hcall] at h; simp at h
      | error e2 =>
        cases e2
        simp only [Prod.mk.injEq, Except.error.injEq] at h
        obtain ⟨he, hc⟩ := h
        subst hc
        cases e
        exact ⟨hsi, rfl, rfl⟩
  · rw [if_neg hsi] at h
    simp at h

theorem severityOf_unmapped (lv : Nat) (h : levelsLogrusToGCE lv = none) :
    severityOf lv = "" := by
  unfold severityOf
  rw [h]
  rfl

theorem severityOf_mem (lv : Nat) :
    severityOf lv = "" ∨
      ∃ s, levelsLogrusToGCE lv = some s ∧ severityOf lv = s := by
  unfold severityOf
  cases levelsLogrusToGCE lv with
  | none => left; rfl
  | some s => right; exact ⟨s, rfl, rfl⟩

theorem levelsLogrusToGCE_image (lv : Nat) (s : String)
    (h : levelsLogrusToGCE lv = some s) :
    s = severityDEBUG ∨ s = severityINFO ∨ s = severityWARNING ∨
      s = severityERROR ∨ s = severityCRITICAL ∨ s = severityALERT := by
  rcases lv with _ | _ | _ | _ | _ | _ | n
  · simp only [levelsLogrusToGCE, Option.some.injEq] at h
    subst h; tauto
  · simp only [levelsLogrusToGCE, Option.some.injEq] at h
    subst h; tauto
  · simp only [levelsLogrusToGCE, Option.some.injEq] at h
    subst h; tauto
  · simp only [levelsLogrusToGCE, Option.some.injEq] at h
    subst h; tauto
  · simp only [levelsLogrusToGCE, Option.some.injEq] at h
    subst h; tauto
  · simp only [levelsLogrusToGCE, Option.some.injEq] at h
    subst h; tauto
  · exact Option.noConfusion h

theorem mapGet_formatData_severity (f : GCEFormatter) (cache : SkipCache)
    (frames : List String) (caller : Nat → Option SourceFrame) (entry : Entry)
    (d : Fields) (cache1 : SkipCache)
    (h : formatData f cache frames caller entry = (.ok d, cache1)) :
    mapGet d "severity" = some (.str (severityOf entry.level)) := by
  rcases formatData_ok_cases f cache frames caller entry d cache1 h with
    hd | ⟨skip, sf, _, _, _, hd⟩
  · rw [hd]; exact mapGet_baseFields_severity entry
  · rw [hd, mapGet_mapSet_ne _ _ _ _ (by decide)]
    exact mapGet_baseFields_severity entry

theorem mapGet_formatData_time (f : GCEFormatter) (cache : SkipCache)
    (frames : List String) (caller : Nat → Option SourceFrame) (entry : Entry)
    (d : Fields) (cache1 : SkipCache)
    (h : formatData f cache frames caller entry = (.ok d, cache1)) :
    mapGet d "time" = some (.str entry.timeRFC3339Nano) := by
  rcases formatData_ok_cases f cache frames caller entry d cache1 h with
    hd | ⟨skip, sf, _, _, _, hd⟩
  · rw [hd]; exact mapGet_baseFields_time entry
  · rw [hd, mapGet_mapSet_ne _ _ _ _ (by decide)]
    exact mapGet_baseFields_time entry

theorem mapGet_formatData_message (f : GCEFormatter) (cache : SkipCache)
    (frames : List String) (caller : Nat → Option SourceFrame) (entry : Entry)
    (d : Fields) (cache1 : SkipCache)
    (h : formatData f cache frames caller entry = (.ok d, cache1)) :
    mapGet d "message" = some (.str entry.message) := by
  rcases formatData_ok_cases f cache frames caller entry d cache1 h with
    hd | ⟨skip, sf, _, _, _, hd⟩
  · rw [hd]; exact mapGet_baseFields_message entry
  · rw [hd, mapGet_mapSet_ne _ _ _ _ (by decide)]
    exact mapGet_baseFields_message entry

theorem mapGet_formatData_other (f : GCEFormatter) (cache : SkipCache)
    (frames : List String) (caller : Nat → Option SourceFrame) (entry : Entry)
    (d : Fields) (cache1 : SkipCache) (k : String)
    (h : formatData f cache frames caller entry = (.ok d, cache1))
    (h1 : k ≠ "time") (h2 : k ≠ "severity") (h3 : k ≠ "message")
    (h4 : k ≠ sourceLocationKey) :
    mapGet d k = (mapGet entry.data k).map coerceField := by
  rcases formatData_ok_cases f cache frames caller entry d cache1 h with
    hd | ⟨skip, sf, _, _, _, hd⟩
  · rw [hd]; exact mapGet_baseFields_other entry k h1 h2 h3
  · rw [hd, mapGet_mapSet_ne _ _ _ _ h4]
    exact mapGet_baseFields_other entry k h1 h2 h3

theorem formatData_sourceInfo_eq (f : GCEFormatter) (cache : SkipCache)
    (frames : List String) (caller : Nat → Option SourceFrame) (entry : Entry)
    (skip : Nat) (cache1 : SkipCache) (sf : SourceFrame)
    (hsi : f.withSourceInfo = true)
    (hskip : getSkipLevel cache frames entry.level = (.ok skip, cache1))
    (hcall : caller skip = some sf) :
    formatData f cache frames caller entry =
      (.ok (mapSet (baseFields entry) sourceLocationKey (sourceLocationValue sf)),
       cache1) := by
  unfold formatData
  rw [if_pos hsi, hskip]
  dsimp only
  rw [hcall]

/-- Claim C1, as frozen, is false at an unmapped level: a record at level 6
(logrus's trace level, representable in the `uint32`-backed `logrus.Level`)
formats successfully with severity `""`, which is none of the six producible
values. -/
theorem severity_six_counterexample :
    formatData (NewGCEFormatter false) [] [] (fun _ => none) entryTrace =
      (.ok (baseFields entryTrace), []) ∧
    mapGet (baseFields entryTrace) "severity" = some (.str "") ∧
    ¬("" = severityDEBUG ∨ "" = severityINFO ∨ "" = severityWARNING ∨
      "" = severityERROR ∨ "" = severityCRITICAL ∨ "" = severityALERT) :=
  ⟨rfl, rfl, by decide⟩

/-- Claim C1 (amended): the mapping is exactly Debug↦DEBUG, Info↦INFO,
Warn↦WARNING, Error↦ERROR, Fatal↦CRITICAL, Panic↦ALERT; every mapped value is
one of those six; every formatted record's emitted severity is one of the six
values or the empty string (for levels outside the map); NOTICE and EMERGENCY
are never emitted. -/
theorem severity_mapping_producible :
    (levelsLogrusToGCE DebugLevel = some severityDEBUG ∧
     levelsLogrusToGCE InfoLevel = some severityINFO ∧
     levelsLogrusToGCE WarnLevel = some severityWARNING ∧
     levelsLogrusToGCE ErrorLevel = some severityERROR ∧
     levelsLogrusToGCE FatalLevel = some severityCRITICAL ∧
     levelsLogrusToGCE PanicLevel = some severityALERT) ∧
    (∀ lv s, levelsLogrusToGCE lv = some s →
       s = severityDEBUG ∨ s = severityINFO ∨ s = severityWARNING ∨
         s = severityERROR ∨ s = severityCRITICAL ∨ s = severityALERT) ∧
    (∀ f cache frames caller entry d cache1 s,
       formatData f cache frames caller entry = (.ok d, cache1) →
       mapGet d "severity" = some (.str s) →
       s = severityDEBUG ∨ s = severityINFO ∨ s = severityWARNING ∨
         s = severityERROR ∨ s = severityCRITICAL ∨ s = severityALERT ∨ s = "") ∧
    (∀ f cache frames caller entry d cache1,
       formatData f cache frames caller entry = (.ok d, cache1) →
       mapGet d "severity" ≠ some (.str severityNOTICE) ∧
       mapGet d "severity" ≠ some (.str severityEMERGENCY)) := by
  refine ⟨⟨rfl, rfl, rfl, rfl, rfl, rfl⟩, levelsLogrusToGCE_image, ?_, ?_⟩
  · intro f cache frames caller entry d cache1 s h hget
    rw [mapGet_formatData_severity f cache frames caller entry d cache1 h] at hget
    have hs : severityOf entry.level = s := by
      simpa using hget
    rcases severityOf_mem entry.level with hemp | ⟨s2, hmap, hval⟩
    · rw [hemp] at hs
      exact Or.inr (Or.inr (Or.inr (Or.inr (Or.inr (Or.inr hs.symm)))))
    · rw [hval] at hs
      subst hs
      have h6 := levelsLogrusToGCE_image entry.level s2 hmap
      tauto
  · intro f cache frames caller entry d cache1 h
    rw [mapGet_formatData_severity f cache frames caller entry d cache1 h]
    constructor
    · intro hget
      have hs : severityOf entry.level = severityNOTICE := by simpa using hget
      rcases severityOf_mem entry.level with hemp | ⟨s2, hmap, hval⟩
      · rw [hemp] at hs
        exact absurd hs (by decide)
      · rw [hval] at hs
        subst hs
        have := levelsLogrusToGCE_image entry.level _ hmap
        revert this
        decide
    · intro hget
      have hs : severityOf entry.level = severityEMERGENCY := by simpa using hget
      rcases severityOf_mem entry.level with hemp | ⟨s2, hmap, hval⟩
      · rw [hemp] at hs
        exact absurd hs (by decide)
      · rw [hval] at hs
        subst hs
        have := levelsLogrusToGCE_image entry.level _ hmap
        revert this
        decide

/-- Witness for `severity_mapping_producible` at a concrete formatted record. -/
theorem severity_mapping_producible_witness :
    severityINFO = severityDEBUG ∨ severityINFO = severityINFO ∨
      severityINFO = severityWARNING ∨ severityINFO = severityERROR ∨
      severityINFO = severityCRITICAL ∨ severityINFO = severityALERT ∨
      severityINFO = "" :=
  severity_mapping_producible.2.2.1 (NewGCEFormatter false) [] [] (fun _ => none)
    entryInfo (baseFields entryInfo) [] severityINFO rfl rfl

/-- Claim C2: on a cache miss, `getSkipLevel` scans the captured window in
order; at the first frame whose function name is not prefixed by
`github.com/sirupsen/logrus` it returns that frame's index plus one, and
stores that depth in the cache keyed by the level. -/
theorem getSkipLevel_first_escape (cache : SkipCache) (frames : List String)
    (lv i : Nat)
    (hmiss : cacheLookup cache lv = none)
    (hi : i < frames.length)
    (hesc : strStartsWith (frames.getD i "") logrusPkg = false)
    (hbefore : ∀ j, j < i → strStartsWith (frames.getD j "") logrusPkg = true) :
    getSkipLevel cache frames lv = (.ok (i + 1), cacheStore cache lv (i + 1)) ∧
    cacheLookup (cacheStore cache lv (i + 1)) lv = some (i + 1) := by
  have hscan : scanFrames 0 frames = some i := by
    have h0 := scanFrames_found frames 0 i hi hesc hbefore
    simpa using h0
  constructor
  · unfold getSkipLevel
    rw [hmiss, hscan]
  · exact cacheLookup_store_self cache lv (i + 1)

/-- Witness for `getSkipLevel_first_escape`: the second frame of the window is
the first one outside logrus, so the skip depth is 2. -/
theorem getSkipLevel_first_escape_witness :
    getSkipLevel [] ["github.com/sirupsen/logrus.(*Entry).log", "main.work"] 4 =
      (.ok 2, cacheStore [] 4 2) ∧
    cacheLookup (cacheStore [] 4 2) 4 = some 2 :=
  getSkipLevel_first_escape [] ["github.com/sirupsen/logrus.(*Entry).log", "main.work"]
    4 1 rfl (by decide) (by decide) (by decide)

/-- Claim C3: a cached level is answered from the cache with no stack walk
(the result does not depend on the captured frames and the cache is
unchanged); no call removes or rewrites an existing cache entry; and after
any successful resolution, a second call at the same level returns the same
depth, again without a walk. -/
theorem skipCache_stable (cache : SkipCache) (frames frames2 : List String)
    (lv lv2 : Nat) :
    (∀ skip, cacheLookup cache lv = some skip →
       getSkipLevel cache frames lv = (.ok skip, cache) ∧
       getSkipLevel cache frames lv = getSkipLevel cache frames2 lv) ∧
    (∀ lv' d', cacheLookup cache lv' = some d' →
       cacheLookup (getSkipLevel cache frames lv2).2 lv' = some d') ∧
    (∀ skip cache1, getSkipLevel cache frames lv = (.ok skip, cache1) →
       getSkipLevel cache1 frames2 lv = (.ok skip, cache1)) := by
  refine ⟨?_, ?_, ?_⟩
  · intro skip hhit
    rw [getSkipLevel_hit cache frames lv skip hhit,
      getSkipLevel_hit cache frames2 lv skip hhit]
    exact ⟨rfl, rfl⟩
  · intro lv' d' hold
    exact getSkipLevel_preserves cache frames lv2 lv' d' hold
  · intro skip cache1 hok
    exact getSkipLevel_hit cache1 frames2 lv skip
      (getSkipLevel_ok_cached cache frames lv skip cache1 hok)

/-- Witness for `skipCache_stable`: a level cached at depth 3 is returned as 3
regardless of the frame window, the entry survives a call for another level,
and a repeat call is a cache hit. -/
theorem skipCache_stable_witness :
    (getSkipLevel [(2, 3)] ["main.main"] 2 = (.ok 3, [(2, 3)]) ∧
     getSkipLevel [(2, 3)] ["main.main"] 2 = getSkipLevel [(2, 3)] ["other.fn"] 2) ∧
    cacheLookup (getSkipLevel [(2, 3)] ["main.main"] 5).2 2 = some 3 ∧
    getSkipLevel [(2, 3)] ["other.fn"] 2 = (.ok 3, [(2, 3)]) :=
  ⟨(skipCache_stable [(2, 3)] ["main.main"] ["other.fn"] 2 5).1 3 rfl,
   (skipCache_stable [(2, 3)] ["main.main"] ["other.fn"] 2 5).2.1 2 3 rfl,
   (skipCache_stable [(2, 3)] ["main.main"] ["other.fn"] 2 5).2.2 3 [(2, 3)] rfl⟩

/-- Claim C4: with source info enabled and the level not yet cached, if every
frame of the 20-slot window is logrus code, `Format` returns the
skip-not-found error and produces no output bytes (the error constructor
carries none), leaving the cache unchanged rather than defaulting to skip 0. -/
theorem format_skip_not_found (f : GCEFormatter) (cache : SkipCache)
    (frames : List String) (caller : Nat → Option SourceFrame) (entry : Entry)
    (hsi : f.withSourceInfo = true)
    (hmiss : cacheLookup cache entry.level = none)
    (_hlen : frames.length = 20)
    (hall : ∀ fr ∈ frames, strStartsWith fr logrusPkg = true) :
    Format f cache frames caller entry = (.error .skipNotFound, cache) := by
  have hskip : getSkipLevel cache frames entry.level =
      (.error .skipNotFound, cache) := by
    unfold getSkipLevel
    rw [hmiss, scanFrames_exhausted frames 0 hall]
  have hfd : formatData f cache frames caller entry =
      (.error .skipNotFound, cache) := by
    unfold formatData
    rw [if_pos hsi, hskip]
  unfold Format
  rw [hfd]

/-- Witness for `format_skip_not_found` on a window of 20 logrus frames. -/
theorem format_skip_not_found_witness :
    Format (NewGCEFormatter true) []
      (List.replicate 20 "github.com/sirupsen/logrus.(*Entry).write")
      (fun _ => none) entryInfo = (.error .skipNotFound, []) :=
  format_skip_not_found (NewGCEFormatter true) []
    (List.replicate 20 "github.com/sirupsen/logrus.(*Entry).write")
    (fun _ => none) entryInfo rfl rfl (by decide) (by decide)

/-- Claim C5, as frozen, is false: when the skip depth is obtained
successfully (here a cache hit at depth 3) but `runtime.Caller` reports no
frame at that depth (`ok == false`, here `caller` constantly `none`),
`Format` still succeeds and the output carries no
`logging.googleapis.com/sourceLocation` key — the `if … ok` guard at line 119
silently drops it. -/
theorem sourceLocation_missing_counterexample :
    (NewGCEFormatter true).withSourceInfo = true ∧
    getSkipLevel [(ErrorLevel, 3)] [] entryError.level =
      (.ok 3, [(ErrorLevel, 3)]) ∧
    formatData (NewGCEFormatter true) [(ErrorLevel, 3)] [] (fun _ => none)
      entryError = (.ok (baseFields entryError), [(ErrorLevel, 3)]) ∧
    mapGet (baseFields entryError) sourceLocationKey = none :=
  ⟨rfl, rfl, rfl, rfl⟩

/-- Claim C5 (amended): with source info enabled, when the skip depth is
obtained and `runtime.Caller` resolves a frame at that depth, the output map
carries `logging.googleapis.com/sourceLocation` bound to the object with keys
`file`, `line` and `function` describing that frame (if the frame does not
resolve, `Format` still succeeds but omits the key). -/
theorem format_sourceLocation_present (f : GCEFormatter) (cache : SkipCache)
    (frames : List String) (caller : Nat → Option SourceFrame) (entry : Entry)
    (skip : Nat) (cache1 : SkipCache) (sf : SourceFrame)
    (hsi : f.withSourceInfo = true)
    (hskip : getSkipLevel cache frames entry.level = (.ok skip, cache1))
    (hcall : caller skip = some sf) :
    formatData f cache frames caller entry =
      (.ok (mapSet (baseFields entry) sourceLocationKey (sourceLocationValue sf)),
       cache1) ∧
    mapGet (mapSet (baseFields entry) sourceLocationKey (sourceLocationValue sf))
        sourceLocationKey =
      some (.obj [("file", .str sf.file), ("line", .int sf.line),
                  ("function", .str sf.functionName)]) := by
  refine ⟨formatData_sourceInfo_eq f cache frames caller entry skip cache1 sf
    hsi hskip hcall, ?_⟩
  rw [mapGet_mapSet_self]
  rfl

/-- Witness for `format_sourceLocation_present` with a cache hit at depth 3
and a resolving caller. -/
theorem format_sourceLocation_present_witness :
    formatData (NewGCEFormatter true) [(ErrorLevel, 3)] []
        (fun _ => some frameMain) entryError =
      (.ok (mapSet (baseFields entryError) sourceLocationKey
        (sourceLocationValue frameMain)), [(ErrorLevel, 3)]) ∧
    mapGet (mapSet (baseFields entryError) sourceLocationKey
        (sourceLocationValue frameMain)) sourceLocationKey =
      some (.obj [("file", .str frameMain.file), ("line", .int frameMain.line),
                  ("function", .str frameMain.functionName)]) :=
  format_sourceLocation_present (NewGCEFormatter true) [(ErrorLevel, 3)] []
    (fun _ => some frameMain) entryError 3 [(ErrorLevel, 3)] frameMain
    rfl rfl rfl

/-- Claim C6: a record at a level absent from the severity map still formats;
its `severity` output value is the empty string, and the only failure
`formatData` can ever report is the skip error of the source-info path,
never a severity-mapping failure. -/
theorem format_unmapped_severity (f : GCEFormatter) (cache : SkipCache)
    (frames : List String) (caller : Nat → Option SourceFrame) (entry : Entry)
    (hun : levelsLogrusToGCE entry.level = none) :
    (∀ d cache1, formatData f cache frames caller entry = (.ok d, cache1) →
       mapGet d "severity" = some (.str "")) ∧
    (f.withSourceInfo = false →
       formatData f cache frames caller entry = (.ok (baseFields entry), cache)) ∧
    (∀ e cache1, formatData f cache frames caller entry = (.error e, cache1) →
       f.withSourceInfo = true ∧ e = .skipNotFound) := by
  refine ⟨?_, ?_, ?_⟩
  · intro d cache1 h
    rw [mapGet_formatData_severity f cache frames caller entry d cache1 h,
      severityOf_unmapped entry.level hun]
  · intro hsi
    unfold formatData
    rw [if_neg (by rw [hsi]; exact Bool.false_ne_true)]
  · intro e cache1 h
    obtain ⟨h1, h2, _⟩ := formatData_error_cases f cache frames caller entry
      e cache1 h
    exact ⟨h1, h2⟩

/-- Witness for `format_unmapped_severity` at level 6, which the map lacks. -/
theorem format_unmapped_severity_witness :
    mapGet (baseFields entryTrace2) "severity" = some (.str "") ∧
    formatData (NewGCEFormatter false) [] [] (fun _ => none) entryTrace2 =
      (.ok (baseFields entryTrace2), []) :=
  ⟨(format_unmapped_severity (NewGCEFormatter false) [] [] (fun _ => none)
      entryTrace2 rfl).1 (baseFields entryTrace2) [] rfl,
   (format_unmapped_severity (NewGCEFormatter false) [] [] (fun _ => none)
      entryTrace2 rfl).2.1 rfl⟩

/-- Claim C7: an input field (under a non-reserved key) holding an error value
appears in the output as the error's message string — never dropped, never an
object (in particular never the empty object `encoding/json` would make of a
bare error value) — and every other field is copied unchanged. -/
theorem format_error_fields_text (f : GCEFormatter) (cache : SkipCache)
    (frames : List String) (caller : Nat → Option SourceFrame) (entry : Entry)
    (d : Fields) (cache1 : SkipCache) (k : String)
    (h : formatData f cache frames caller entry = (.ok d, cache1))
    (h1 : k ≠ "time") (h2 : k ≠ "severity") (h3 : k ≠ "message")
    (h4 : k ≠ sourceLocationKey) :
    (∀ msg, mapGet entry.data k = some (.err msg) →
       mapGet d k = some (.str msg) ∧ ∀ fs, mapGet d k ≠ some (.obj fs)) ∧
    (∀ v, mapGet entry.data k = some v → mapGet d k = some (coerceField v)) := by
  have hother := mapGet_formatData_other f cache frames caller entry d cache1 k
    h h1 h2 h3 h4
  constructor
  · intro msg hget
    rw [hother, hget]
    refine ⟨rfl, ?_⟩
    intro fs heq
    simp [coerceField] at heq
  · intro v hget
    rw [hother, hget]
    rfl

/-- Witness for `format_error_fields_text`: the `cause` field holds an error
value and comes out as its message text; the `path` field is copied as is. -/
theorem format_error_fields_text_witness :
    (mapGet (baseFields entryWithErr) "cause" = some (.str "file not found") ∧
     ∀ fs, mapGet (baseFields entryWithErr) "cause" ≠ some (.obj fs)) ∧
    mapGet (baseFields entryWithErr) "path" = some (coerceField (.str "/data")) :=
  ⟨(format_error_fields_text (NewGCEFormatter false) [] [] (fun _ => none)
      entryWithErr (baseFields entryWithErr) [] "cause" rfl (by decide)
      (by decide) (by decide) (by decide)).1 "file not found" rfl,
   (format_error_fields_text (NewGCEFormatter false) [] [] (fun _ => none)
      entryWithErr (baseFields entryWithErr) [] "path" rfl (by decide)
      (by decide) (by decide) (by decide)).2 (.str "/data") rfl⟩

/-- Claim C8: every successful `Format` result is the JSON rendering of one
object followed by exactly one newline byte: the body contains no newline
character, starts with the opening brace and ends with the closing brace, so
there is no other leading or trailing whitespace. -/
theorem format_output_line (f : GCEFormatter) (cache : SkipCache)
    (frames : List String) (caller : Nat → Option SourceFrame) (entry : Entry)
    (out : String) (cache1 : SkipCache)
    (h : Format f cache frames caller entry = (.ok out, cache1)) :
    ∃ d, formatData f cache frames caller entry = (.ok d, cache1) ∧
      out = renderTop d ++ "\n" ∧
      out.data = (renderTop d).data ++ ['\n'] ∧
      '\n' ∉ (renderTop d).data ∧
      (renderTop d).data.head? = some obraceChar ∧
      (renderTop d).data.getLast? = some cbraceChar := by
  unfold Format at h
  cases hfd : formatData f cache frames caller entry with
  | mk res cache2 =>
    rw [hfd] at h
    cases res with
    | ok d =>
      simp only [Prod.mk.injEq, Except.ok.injEq] at h
      obtain ⟨ho, hc⟩ := h
      subst hc
      subst ho
      refine ⟨d, rfl, rfl, ?_, newline_not_mem_renderTop d,
        renderTop_head d, renderTop_last d⟩
      rw [String.data_append]
    | error e => simp at h

/-- Witness for `format_output_line` on a concrete record. -/
theorem format_output_line_witness :
    ∃ d, formatData (NewGCEFormatter false) [] [] (fun _ => none) entryPath =
        (.ok d, []) ∧
      renderTop (baseFields entryPath) ++ "\n" = renderTop d ++ "\n" ∧
      (renderTop (baseFields entryPath) ++ "\n").data =
        (renderTop d).data ++ ['\n'] ∧
      '\n' ∉ (renderTop d).data ∧
      (renderTop d).data.head? = some obraceChar ∧
      (renderTop d).data.getLast? = some cbraceChar :=
  format_output_line (NewGCEFormatter false) [] [] (fun _ => none) entryPath
    (renderTop (baseFields entryPath) ++ "\n") [] rfl

/-- Claim C9: the JSON object `Format` serializes (and emits, newline
terminated) binds `message` to the record's message, `time` to the record's
RFC3339Nano timestamp rendering, and every non-reserved input field to its
original value, with error values appearing as their message text. -/
theorem format_roundtrip_fields (f : GCEFormatter) (cache : SkipCache)
    (frames : List String) (caller : Nat → Option SourceFrame) (entry : Entry)
    (d : Fields) (cache1 : SkipCache)
    (h : formatData f cache frames caller entry = (.ok d, cache1)) :
    Format f cache frames caller entry = (.ok (renderTop d ++ "\n"), cache1) ∧
    mapGet d "message" = some (.str entry.message) ∧
    mapGet d "time" = some (.str entry.timeRFC3339Nano) ∧
    (∀ k v, k ≠ "time" → k ≠ "severity" → k ≠ "message" →
       k ≠ sourceLocationKey → mapGet entry.data k = some v →
       mapGet d k = some (coerceField v)) := by
  refine ⟨?_, mapGet_formatData_message f cache frames caller entry d cache1 h,
    mapGet_formatData_time f cache frames caller entry d cache1 h, ?_⟩
  · unfold Format
    rw [h]
  · intro k v h1 h2 h3 h4 hget
    rw [mapGet_formatData_other f cache frames caller entry d cache1 k
      h h1 h2 h3 h4, hget]
    rfl

/-- Witness for `format_roundtrip_fields` on a record with an error field and
a plain field. -/
theorem format_roundtrip_fields_witness :
    Format (NewGCEFormatter false) [] [] (fun _ => none) entryWithErr =
      (.ok (renderTop (baseFields entryWithErr) ++ "\n"), []) ∧
    mapGet (baseFields entryWithErr) "message" = some (.str "open failed") ∧
    mapGet (baseFields entryWithErr) "time" =
      some (.str "2023-03-03T03:03:03Z") ∧
    mapGet (baseFields entryWithErr) "path" = some (coerceField (.str "/data")) := by
  have hall := format_roundtrip_fields (NewGCEFormatter false) [] []
    (fun _ => none) entryWithErr (baseFields entryWithErr) [] rfl
  exact ⟨hall.1, hall.2.1, hall.2.2.1,
    hall.2.2.2 "path" (.str "/data") (by decide) (by decide) (by decide)
      (by decide) rfl⟩

/-- Claim C10, as frozen, is false for the source-location key: with source
info disabled (and likewise whenever `runtime.Caller` fails), an input field
named `logging.googleapis.com/sourceLocation` passes through to the output
unreplaced — only `time`, `severity` and `message` are unconditionally
overwritten. -/
theorem reserved_passthrough_counterexample :
    formatData (NewGCEFormatter false) [] [] (fun _ => none) entryShadow =
      (.ok (baseFields entryShadow), []) ∧
    mapGet (baseFields entryShadow) sourceLocationKey =
      some (.str "user supplied") ∧
    mapGet (baseFields entryShadow) "severity" = some (.str severityINFO) :=
  ⟨rfl, rfl, rfl⟩

/-- Claim C10 (amended): input fields named `time`, `severity` or `message`
are always overwritten by the formatter's reserved values; an input field
named `logging.googleapis.com/sourceLocation` is overwritten exactly when
source info is enabled, the skip depth resolves and `runtime.Caller` finds a
frame.  (The input record itself is never mutated: `formatData` only reads
`entry`.) -/
theorem format_reserved_overwrite (f : GCEFormatter) (cache : SkipCache)
    (frames : List String) (caller : Nat → Option SourceFrame) (entry : Entry)
    (d : Fields) (cache1 : SkipCache)
    (h : formatData f cache frames caller entry = (.ok d, cache1)) :
    mapGet d "time" = some (.str entry.timeRFC3339Nano) ∧
    mapGet d "severity" = some (.str (severityOf entry.level)) ∧
    mapGet d "message" = some (.str entry.message) ∧
    (∀ skip sf, f.withSourceInfo = true →
       getSkipLevel cache frames entry.level = (.ok skip, cache1) →
       caller skip = some sf →
       mapGet d sourceLocationKey = some (sourceLocationValue sf)) := by
  refine ⟨mapGet_formatData_time f cache frames caller entry d cache1 h,
    mapGet_formatData_severity f cache frames caller entry d cache1 h,
    mapGet_formatData_message f cache frames caller entry d cache1 h, ?_⟩
  intro skip sf hsi hskip hcall
  have heq := formatData_sourceInfo_eq f cache frames caller entry skip cache1
    sf hsi hskip hcall
  rw [h] at heq
  simp only [Prod.mk.injEq, Except.ok.injEq] at heq
  rw [heq.1, mapGet_mapSet_self]

/-- Witness for `format_reserved_overwrite`: the input's own `severity` and
source-location fields are replaced by the formatter's values when source
info is on and the caller frame resolves. -/
theorem format_reserved_overwrite_witness :
    mapGet (mapSet (baseFields entryShadow) sourceLocationKey
        (sourceLocationValue frameMain)) "time" =
      some (.str "2020-05-05T05:05:05Z") ∧
    mapGet (mapSet (baseFields entryShadow) sourceLocationKey
        (sourceLocationValue frameMain)) "severity" =
      some (.str (severityOf InfoLevel)) ∧
    mapGet (mapSet (baseFields entryShadow) sourceLocationKey
        (sourceLocationValue frameMain)) "message" = some (.str "m") ∧
    mapGet (mapSet (baseFields entryShadow) sourceLocationKey
        (sourceLocationValue frameMain)) sourceLocationKey =
      some (sourceLocationValue frameMain) := by
  have hall := format_reserved_overwrite (NewGCEFormatter true) [(InfoLevel, 2)]
    [] (fun _ => some frameMain) entryShadow
    (mapSet (baseFields entryShadow) sourceLocationKey
      (sourceLocationValue frameMain)) [(InfoLevel, 2)] rfl
  exact ⟨hall.1, hall.2.1, hall.2.2.1, hall.2.2.2 2 frameMain rfl rfl rfl⟩
